import Mathlib

/- Verification of the simbad catalog library (src/lib.rs).

   Modelling conventions:
   - f64 values are modelled as real numbers, with host-specific floating
     operations made explicit: the truncating remainder `%` is `frem`,
     `f64::signum` is `rsignum` (there is no -0 over the reals), `atan2`
     is spelled out by cases.
   - Strings are modelled as lists of characters; `split_whitespace` is
     `splitWs`; the numeric `parse` functions of the standard library are
     modelled by `parseU8`, `parseI16` and `parseF64q` over their decimal
     grammar (the exotic `inf`/`nan` spellings accepted by the f64 grammar
     have no real counterpart and are mapped to a parse failure; no claim
     exercises them).
   - NaN-sensitive behaviour of the import tail (claim about averaging an
     empty coordinate list) is modelled separately on `Option ℝ`, where
     `none` stands for a non-finite value; see the `nan`-prefixed
     operations below. -/

open Real

/-- Truncation of a real number toward zero, the rounding used by the host
floating remainder. -/
noncomputable def rtrunc (x : ℝ) : ℤ := if 0 ≤ x then ⌊x⌋ else ⌈x⌉

/-- Rust floating remainder `a % b`, which is exact: `a - b * trunc (a / b)`. -/
noncomputable def frem (a b : ℝ) : ℝ := a - b * rtrunc (a / b)

/-- Rust `f64::signum` restricted to the reals: `1` for `x ≥ 0` (the `-0.0`
case does not exist over ℝ), `-1` for `x < 0`. -/
noncomputable def rsignum (x : ℝ) : ℝ := if x < 0 then -1 else 1

/-- The 2-component double vector of the `glam` crate, over ℝ. -/
structure DVec2 where
  x : ℝ
  y : ℝ

/-- The 3-component double vector of the `glam` crate, over ℝ. -/
structure DVec3 where
  x : ℝ
  y : ℝ
  z : ℝ

/-- Euclidean length of a `DVec2` (`glam` `length`). -/
noncomputable def DVec2.length (v : DVec2) : ℝ := Real.sqrt (v.x ^ 2 + v.y ^ 2)

/-- Euclidean length of a `DVec3` (`glam` `length`). -/
noncomputable def DVec3.length (v : DVec3) : ℝ :=
  Real.sqrt (v.x ^ 2 + v.y ^ 2 + v.z ^ 2)

/-- Two-argument arctangent as computed by `f64::atan2 y x`. -/
noncomputable def atan2 (y x : ℝ) : ℝ :=
  if 0 < x then Real.arctan (y / x)
  else if x < 0 then
    (if 0 ≤ y then Real.arctan (y / x) + π else Real.arctan (y / x) - π)
  else
    (if 0 < y then π / 2 else if y < 0 then -(π / 2) else 0)

/-- The `EquatorialCoordinate` struct: a (right ascension, declination) pair
in radians (src/lib.rs lines 66-70). -/
structure EquatorialCoordinate where
  right_ascension : ℝ
  declination : ℝ

/-- `EquatorialCoordinate::new` (src/lib.rs lines 74-81): the right ascension
is reduced with the host remainder `% (2π)` and the declination is clamped by
`.max(-90°.to_radians()).min(90°.to_radians())`. -/
noncomputable def EquatorialCoordinate.new (right_ascension declination : ℝ) :
    EquatorialCoordinate :=
  { right_ascension := frem right_ascension (2 * π),
    declination := min (max declination (-(π / 2))) (π / 2) }

/-- The `StellarPosition` struct (src/lib.rs lines 16-20). -/
structure StellarPosition where
  distance : ℝ
  coord : EquatorialCoordinate

/-- `StellarPosition::new` (src/lib.rs lines 22-29): stores the distance
unchanged and normalizes the angles through `EquatorialCoordinate::new`. -/
noncomputable def StellarPosition.new (distance right_ascension declination : ℝ) :
    StellarPosition :=
  { distance := distance,
    coord := EquatorialCoordinate.new right_ascension declination }

/-- `impl Into<DVec3> for StellarPosition` (src/lib.rs lines 37-44): the
forward spherical-to-Cartesian transform. -/
noncomputable def StellarPosition.toDVec3 (p : StellarPosition) : DVec3 :=
  let adj := p.distance * Real.cos p.coord.declination
  let opp := p.distance * Real.sin p.coord.declination
  let plane_vec : DVec2 :=
    ⟨adj * Real.cos p.coord.right_ascension, adj * Real.sin p.coord.right_ascension⟩
  ⟨plane_vec.x, plane_vec.y, opp⟩

/-- `impl From<DVec3> for StellarPosition` (src/lib.rs lines 46-64): the
inverse Cartesian-to-spherical transform, with the source's quadrant
adjustment of `atan2(|y|, |x|)` reproduced branch by branch
(`180f64.to_radians() = π`, `360f64.to_radians() = 2π`). -/
noncomputable def StellarPosition.fromDVec3 (value : DVec3) : StellarPosition :=
  let hyp := DVec3.length value
  let plane_vec : DVec2 := ⟨value.x, value.y⟩
  let adj := DVec2.length plane_vec
  let dec := if hyp ≠ 0 then Real.arccos (adj / hyp) * rsignum value.z else 0
  let ra := atan2 |plane_vec.y| |plane_vec.x|
  let x := plane_vec.x
  let y := plane_vec.y
  let ra2 :=
    if 0 ≤ x ∧ 0 ≤ y then ra
    else if 0 ≤ x ∧ y ≤ 0 then π - ra
    else if x ≤ 0 ∧ y ≤ 0 then π + ra
    else 2 * π - ra
  { distance := hyp,
    coord := { right_ascension := ra2, declination := dec } }

/-- The `Degree` struct (src/lib.rs lines 88-93): signed integer degrees with
arcminute/arcsecond magnitudes. -/
structure Degree where
  base : ℤ
  arc_mins : ℕ
  arc_secs : ℝ

/-- `Degree::new` (src/lib.rs lines 97-103). -/
def Degree.new (base : ℤ) (arc_mins : ℕ) (arc_secs : ℝ) : Degree :=
  { base := base, arc_mins := arc_mins, arc_secs := arc_secs }

/-- `Degree::to_f64` (src/lib.rs lines 105-107): `base + mins/60 + secs/3600`. -/
noncomputable def Degree.to_f64 (d : Degree) : ℝ :=
  (d.base : ℝ) + (d.arc_mins : ℝ) / 60 + d.arc_secs / 3600

/-- The `HourAngle` struct (src/lib.rs lines 110-115). -/
structure HourAngle where
  hours : ℕ
  minutes : ℕ
  seconds : ℝ

/-- `HourAngle::new` (src/lib.rs lines 118-124). -/
def HourAngle.new (hours minutes : ℕ) (seconds : ℝ) : HourAngle :=
  { hours := hours, minutes := minutes, seconds := seconds }

/-- `HourAngle::to_sec` (src/lib.rs lines 125-127). -/
noncomputable def HourAngle.to_sec (h : HourAngle) : ℝ :=
  ((h.hours * 3600 + h.minutes * 60 : ℕ) : ℝ) + h.seconds

/-- `HourAngle::to_radians` (src/lib.rs lines 133-135). -/
noncomputable def HourAngle.to_radians (h : HourAngle) : ℝ :=
  h.to_sec * π / 43200

/-- The distance derivation of the import pipeline (src/lib.rs lines 211-212):
`1/(plx/1000)*3.26`, with a non-finite result replaced by `0`. Over the
reals the computation is non-finite exactly when `plx = 0` (the float divides
by zero there), so the `is_finite` test is modelled by that case split. -/
noncomputable def deriveDist (plx : ℝ) : ℝ :=
  if plx = 0 then 0 else 1 / (plx / 1000) * 3.26

/- Helper lemmas about the truncating remainder and the clamp. -/

lemma frem_nonneg_of_nonneg {a b : ℝ} (ha : 0 ≤ a) (hb : 0 < b) :
    0 ≤ frem a b ∧ frem a b < b := by
  have hdiv : 0 ≤ a / b := div_nonneg ha hb.le
  have hrw : frem a b = b * Int.fract (a / b) := by
    unfold frem rtrunc
    rw [if_pos hdiv, Int.fract]
    field_simp
  constructor
  · rw [hrw]; exact mul_nonneg hb.le (Int.fract_nonneg _)
  · rw [hrw]
    calc b * Int.fract (a / b) < b * 1 :=
      (mul_lt_mul_left hb).mpr (Int.fract_lt_one _)
    _ = b := mul_one b

lemma frem_nonpos_of_neg {a b : ℝ} (ha : a < 0) (hb : 0 < b) :
    -b < frem a b ∧ frem a b ≤ 0 := by
  have hdiv : a / b < 0 := div_neg_of_neg_of_pos ha hb
  have hrw : frem a b = b * (a / b - ⌈a / b⌉) := by
    unfold frem rtrunc
    rw [if_neg (by linarith)]
    field_simp
  have h1 : a / b ≤ ⌈(a / b : ℝ)⌉ := Int.le_ceil _
  have h2 : (⌈(a / b : ℝ)⌉ : ℝ) < a / b + 1 := Int.ceil_lt_add_one _
  constructor
  · rw [hrw]; nlinarith
  · rw [hrw]
    have hle : a / b - ⌈(a / b : ℝ)⌉ ≤ 0 := by linarith
    exact mul_nonpos_iff.mpr (Or.inl ⟨hb.le, hle⟩)

lemma frem_eq_self {a b : ℝ} (ha : 0 ≤ a) (hab : a < b) : frem a b = a := by
  have hb : 0 < b := lt_of_le_of_lt ha hab
  have hdiv : 0 ≤ a / b := div_nonneg ha hb.le
  have hfl : ⌊a / b⌋ = 0 := by
    rw [Int.floor_eq_zero_iff]
    exact ⟨hdiv, (div_lt_one hb).mpr hab⟩
  unfold frem rtrunc
  rw [if_pos hdiv, hfl]
  simp

lemma clamp_id {x : ℝ} (h1 : -(π / 2) ≤ x) (h2 : x ≤ π / 2) :
    min (max x (-(π / 2))) (π / 2) = x := by
  rw [max_eq_left h1, min_eq_left h2]

/- Claim C2 -/

/-- C2 counterexample: the claim says `EquatorialCoordinate::new` returns a
right ascension in `[0, 2π)` for every input, including negative ones; but at
`ra = -π` the truncating remainder keeps the sign of the dividend, the stored
right ascension is `-π`, and `0 ≤ -π` fails. -/
theorem C2_counterexample :
    (EquatorialCoordinate.new (-π) 0).right_ascension = -π ∧
    ¬ (0 ≤ (EquatorialCoordinate.new (-π) 0).right_ascension ∧
       (EquatorialCoordinate.new (-π) 0).right_ascension < 2 * π) := by
  have hπ := Real.pi_pos
  have hval : (EquatorialCoordinate.new (-π) 0).right_ascension = -π := by
    show frem (-π) (2 * π) = -π
    have hdiv : (-π) / (2 * π) = -(1 / 2) := by
      field_simp
      ring
    have hce : ⌈(-(1 / 2) : ℝ)⌉ = 0 := by
      rw [Int.ceil_eq_iff]
      norm_num
    unfold frem rtrunc
    rw [hdiv, if_neg (by norm_num), hce]
    simp
  refine ⟨hval, ?_⟩
  rw [hval]
  intro h
  linarith [h.1]

/-- C2 (amended): the right ascension stored by `EquatorialCoordinate::new`
always lies in the open interval `(-2π, 2π)`, and it lies in `[0, 2π)`
whenever the input right ascension is non-negative; a negative input that is
not a multiple of `2π` keeps its sign (truncating-remainder semantics). -/
theorem C2_ra_range (ra dec : ℝ) :
    (-(2 * π) < (EquatorialCoordinate.new ra dec).right_ascension ∧
      (EquatorialCoordinate.new ra dec).right_ascension < 2 * π) ∧
    (0 ≤ ra → 0 ≤ (EquatorialCoordinate.new ra dec).right_ascension) := by
  have hπ := Real.pi_pos
  have hb : (0 : ℝ) < 2 * π := by linarith
  have hra : (EquatorialCoordinate.new ra dec).right_ascension = frem ra (2 * π) := rfl
  rw [hra]
  rcases le_or_lt 0 ra with hcase | hcase
  · obtain ⟨h1, h2⟩ := frem_nonneg_of_nonneg hcase hb
    exact ⟨⟨by linarith, h2⟩, fun _ => h1⟩
  · obtain ⟨h1, h2⟩ := frem_nonpos_of_neg hcase hb
    exact ⟨⟨h1, by linarith⟩, fun h => absurd h (not_le.mpr hcase)⟩

/-- C2 witness: at the concrete input `(ra, dec) = (0, 0)` the amended range
facts hold. -/
theorem C2_ra_range_witness :
    (-(2 * π) < (EquatorialCoordinate.new 0 0).right_ascension ∧
      (EquatorialCoordinate.new 0 0).right_ascension < 2 * π) ∧
    0 ≤ (EquatorialCoordinate.new 0 0).right_ascension :=
  ⟨(C2_ra_range 0 0).1, (C2_ra_range 0 0).2 (le_refl 0)⟩

/- Claim C8 -/

/-- C8: `EquatorialCoordinate::new` saturates the declination at the poles:
inputs below `-π/2` are mapped to exactly `-π/2`, inputs above `π/2` to
exactly `π/2`, and inputs already inside `[-π/2, π/2]` are left unchanged. -/
theorem C8_dec_clamp (ra dec : ℝ) :
    (dec < -(π / 2) → (EquatorialCoordinate.new ra dec).declination = -(π / 2)) ∧
    (π / 2 < dec → (EquatorialCoordinate.new ra dec).declination = π / 2) ∧
    (-(π / 2) ≤ dec → dec ≤ π / 2 →
      (EquatorialCoordinate.new ra dec).declination = dec) := by
  have hπ := Real.pi_pos
  have hdec : (EquatorialCoordinate.new ra dec).declination =
      min (max dec (-(π / 2))) (π / 2) := rfl
  refine ⟨fun h => ?_, fun h => ?_, fun h1 h2 => ?_⟩
  · rw [hdec, max_eq_right h.le, min_eq_left (by linarith)]
  · rw [hdec, max_eq_left (by linarith), min_eq_right h.le]
  · rw [hdec, clamp_id h1 h2]

/-- C8 witness: the clamp evaluated at declinations `-2` (below the south
pole), `2` (above the north pole) and `0` (in range). -/
theorem C8_dec_clamp_witness :
    (EquatorialCoordinate.new 0 (-2)).declination = -(π / 2) ∧
    (EquatorialCoordinate.new 0 2).declination = π / 2 ∧
    (EquatorialCoordinate.new 0 0).declination = 0 :=
  ⟨(C8_dec_clamp 0 (-2)).1 (by nlinarith [Real.pi_lt_d2]),
   (C8_dec_clamp 0 2).2.1 (by nlinarith [Real.pi_lt_d2]),
   (C8_dec_clamp 0 0).2.2 (by nlinarith [Real.pi_pos]) (by nlinarith [Real.pi_pos])⟩

/- Claim C3 -/

/-- C3 counterexample: the claim says every distance handed to
`StellarPosition::new` by the import pipeline is non-negative even for
negative parallax; but the pipeline derives `1/(plx/1000)*3.26` with no sign
handling, so parallax `-100` yields the (finite, hence kept) distance
`-32.6`, and `StellarPosition::new` stores it unchanged. -/
theorem C3_counterexample :
    (StellarPosition.new (deriveDist (-100)) 0 0).distance < 0 := by
  have h : (StellarPosition.new (deriveDist (-100)) 0 0).distance =
      deriveDist (-100) := rfl
  rw [h]
  unfold deriveDist
  norm_num

/-- C3 (amended): the distance the import pipeline passes to
`StellarPosition::new` is non-negative whenever the record's parallax is
non-negative (zero parallax is clamped to distance `0`; positive parallax
gives a positive distance); negative parallax produces a negative distance. -/
theorem C3_dist_nonneg (plx : ℝ) (h : 0 ≤ plx) : 0 ≤ deriveDist plx := by
  unfold deriveDist
  rcases eq_or_ne plx 0 with h0 | h0
  · rw [if_pos h0]
  · rw [if_neg h0]
    have hpos : 0 < plx := lt_of_le_of_ne h (Ne.symm h0)
    have h1 : 0 < plx / 1000 := div_pos hpos (by norm_num)
    have h2 : 0 < 1 / (plx / 1000) := one_div_pos.mpr h1
    have h3 : (0 : ℝ) ≤ 3.26 := by norm_num
    exact mul_nonneg h2.le h3

/-- C3 witness: parallax `100` gives a non-negative derived distance. -/
theorem C3_dist_nonneg_witness : 0 ≤ deriveDist 100 :=
  C3_dist_nonneg 100 (by norm_num)

/- Claim C7 -/

/-- C7: for every record with parallax present the derived distance is
`3.26 / (plx/1000)` (the source spells it `1/(plx/1000)*3.26`), except that a
zero parallax — the one input whose float computation is non-finite — is
clamped to distance exactly `0`; in particular parallax `100` yields `32.6`. -/
theorem C7_derived_distance :
    (∀ plx : ℝ, deriveDist plx = if plx = 0 then 0 else 3.26 / (plx / 1000)) ∧
    deriveDist 100 = 32.6 ∧ deriveDist 0 = 0 := by
  refine ⟨fun plx => ?_, by unfold deriveDist; norm_num, by unfold deriveDist; norm_num⟩
  unfold deriveDist
  rcases eq_or_ne plx 0 with h | h
  · rw [if_pos h, if_pos h]
  · rw [if_neg h, if_neg h, one_div_mul_eq_div]

/- String-parsing layer. Strings are lists of characters; `splitWs` models
`str::split_whitespace` (maximal runs of non-whitespace characters). -/

/-- Whitespace splitter: `acc` holds the (reversed) current token. -/
def splitWsAux : List Char → List Char → List (List Char)
  | [], [] => []
  | [], acc => [acc.reverse]
  | c :: cs, acc =>
    if c.isWhitespace then
      if acc = [] then splitWsAux cs [] else acc.reverse :: splitWsAux cs []
    else splitWsAux cs (c :: acc)

/-- `str::split_whitespace` collected into a list of tokens. -/
def splitWs (s : List Char) : List (List Char) := splitWsAux s []

/-- Longest digit prefix of a character list, as digit values, with the rest. -/
def takeDigits : List Char → List ℕ × List Char
  | [] => ([], [])
  | c :: cs =>
    if c.isDigit then
      let p := takeDigits cs
      ((c.toNat - 48) :: p.1, p.2)
    else ([], c :: cs)

/-- Value of a big-endian digit list. -/
def digitsVal (ds : List ℕ) : ℕ := ds.foldl (fun a d => a * 10 + d) 0

/-- A non-empty all-digit string, as a natural number; `none` otherwise. -/
def parseDigits (s : List Char) : Option ℕ :=
  let p := takeDigits s
  if p.1 = [] ∨ p.2 ≠ [] then none else some (digitsVal p.1)

/-- `str::parse::<u8>`: an optional `+` sign, digits, value at most 255. -/
def parseU8 (s : List Char) : Option ℕ :=
  let t := match s with
    | '+' :: rest => rest
    | _ => s
  match parseDigits t with
  | some n => if n ≤ 255 then some n else none
  | none => none

/-- `str::parse::<i16>`: an optional sign, digits, value in `[-32768, 32767]`. -/
def parseI16 (s : List Char) : Option ℤ :=
  match s with
  | '+' :: rest =>
    match parseDigits rest with
    | some n => if n ≤ 32767 then some (n : ℤ) else none
    | none => none
  | '-' :: rest =>
    match parseDigits rest with
    | some n => if n ≤ 32768 then some (-(n : ℤ)) else none
    | none => none
  | _ =>
    match parseDigits s with
    | some n => if n ≤ 32767 then some (n : ℤ) else none
    | none => none

/-- Exponent suffix of the f64 grammar (`[eE][+-]?digits` or nothing),
applied to an already-parsed mantissa. -/
def parseExpPart (t : List Char) (m : ℚ) : Option ℚ :=
  match t with
  | [] => some m
  | e :: rest =>
    if e = 'e' ∨ e = 'E' then
      let p : ℤ × List Char := match rest with
        | '+' :: r => (1, r)
        | '-' :: r => (-1, r)
        | _ => (1, rest)
      let d := takeDigits p.2
      if d.1 = [] ∨ d.2 ≠ [] then none
      else some (m * (10 : ℚ) ^ (p.1 * (digitsVal d.1 : ℤ)))
    else none

/-- `str::parse::<f64>` over its finite decimal grammar
(`[+-]? (digits [. digits?] | . digits) exp?`), valued in ℚ, which the
float computation then uses exactly (rounding is not modelled; the
non-finite spellings `inf`/`nan` are mapped to a parse failure). -/
def parseF64q (s : List Char) : Option ℚ :=
  let p : ℚ × List Char := match s with
    | '+' :: rest => (1, rest)
    | '-' :: rest => (-1, rest)
    | _ => (1, s)
  let ip := takeDigits p.2
  match ip.2 with
  | '.' :: t2 =>
    let fp := takeDigits t2
    if ip.1 = [] ∧ fp.1 = [] then none
    else parseExpPart fp.2
      (p.1 * ((digitsVal ip.1 : ℚ) + (digitsVal fp.1 : ℚ) / 10 ^ fp.1.length))
  | _ =>
    if ip.1 = [] then none
    else parseExpPart ip.2 (p.1 * (digitsVal ip.1 : ℚ))

/-- `str::parse::<f64>` as a real number. -/
noncomputable def parseF64 (s : List Char) : Option ℝ :=
  (parseF64q s).map (fun q => (q : ℝ))

/-- Core of `parse_coord` (src/lib.rs lines 236-245) after whitespace
splitting: fewer than 6 tokens fails; tokens 0-2 parse as an hour angle,
token 3 minus its first character (the `[1..]` slice) as signed degrees,
tokens 4-5 as arcminutes/arcseconds; the declination is negated exactly when
the first character of token 3 (the `[0..1]` slice) is `-`; extra tokens are
ignored. `f64::to_radians` is multiplication by `π / 180`. -/
noncomputable def parse_coord_tokens (splits : List (List Char)) :
    Option EquatorialCoordinate :=
  if splits.length < 6 then none else
  match splits with
  | s0 :: s1 :: s2 :: s3 :: s4 :: s5 :: _ =>
    (parseU8 s0).bind fun h =>
    (parseU8 s1).bind fun m =>
    (parseF64 s2).bind fun sec =>
    (parseI16 (s3.drop 1)).bind fun base =>
    (parseU8 s4).bind fun arcm =>
    (parseF64 s5).bind fun arcs =>
    let ra := (HourAngle.new h m sec).to_radians
    let dec := (Degree.new base arcm arcs).to_f64
    let dec2 := dec * (if s3.take 1 = ['-'] then -1 else 1) * (π / 180)
    some (EquatorialCoordinate.new ra dec2)
  | _ => none

/-- `parse_coord` (src/lib.rs lines 236-245). -/
noncomputable def parse_coord (input : List Char) : Option EquatorialCoordinate :=
  parse_coord_tokens (splitWs input)

/-- `parse_coord4` (src/lib.rs lines 247-252) with the possibility of a panic
made explicit: the source indexes `splits[0]` and `splits[1]` without any
length check, so the result type distinguishes a panic (outer `none`, an
out-of-bounds index) from a graceful parse failure (`some none`, the `?`
operator on a failed numeric parse). Evaluation order matches the source:
`splits[0]` is indexed, then parsed, then `splits[1]` is indexed, then
parsed. -/
noncomputable def parse_coord4 (input : List Char) :
    Option (Option EquatorialCoordinate) :=
  match splitWs input with
  | [] => none
  | s0 :: rest =>
    match parseF64 s0 with
    | none => some none
    | some ra =>
      match rest with
      | [] => none
      | s1 :: _ =>
        match parseF64 s1 with
        | none => some none
        | some dec =>
          some (some (EquatorialCoordinate.new (ra * (π / 180)) (dec * (π / 180))))

lemma parse_coord_tokens_cons_eq_none_iff (s0 s1 s2 s3 s4 s5 : List Char)
    (rest : List (List Char)) :
    parse_coord_tokens (s0 :: s1 :: s2 :: s3 :: s4 :: s5 :: rest) = none ↔
      (parseU8 s0 = none ∨ parseU8 s1 = none ∨ parseF64 s2 = none ∨
       parseI16 (s3.drop 1) = none ∨ parseU8 s4 = none ∨ parseF64 s5 = none) := by
  unfold parse_coord_tokens
  rw [if_neg (by simp only [List.length_cons]; omega)]
  cases h0 : parseU8 s0 with
  | none => simp [h0]
  | some v0 =>
    cases h1 : parseU8 s1 with
    | none => simp [h0, h1]
    | some v1 =>
      cases h2 : parseF64 s2 with
      | none => simp [h0, h1, h2]
      | some v2 =>
        rw [List.drop_one] at *
        cases h3 : parseI16 s3.tail with
        | none => simp [h0, h1, h2, h3]
        | some v3 =>
          cases h4 : parseU8 s4 with
          | none => simp [h0, h1, h2, h3, h4]
          | some v4 =>
            cases h5 : parseF64 s5 with
            | none => simp [h0, h1, h2, h3, h4, h5]
            | some v5 => simp [h0, h1, h2, h3, h4, h5]

/- Claim C9 -/

/-- C9: `parse_coord` returns no value exactly when its input has fewer than
6 whitespace-separated tokens or one of the six numeric components (RA hours,
RA minutes, RA seconds, declination degrees after the first character is
stripped, arcminutes, arcseconds) fails to parse — it is a total function of
the character list, so at this level of modelling there is no crash and no
partial result; in particular the 2-token input `"12 30"` yields no value. -/
theorem C9_parse_coord_failure :
    (∀ input : List Char,
      parse_coord input = none ↔
        (splitWs input).length < 6 ∨
        ∃ s0 s1 s2 s3 s4 s5 rest,
          splitWs input = s0 :: s1 :: s2 :: s3 :: s4 :: s5 :: rest ∧
          (parseU8 s0 = none ∨ parseU8 s1 = none ∨ parseF64 s2 = none ∨
           parseI16 (s3.drop 1) = none ∨ parseU8 s4 = none ∨ parseF64 s5 = none)) ∧
    parse_coord ("12 30".toList) = none := by
  constructor
  · intro input
    unfold parse_coord
    rcases hsp : splitWs input with _ | ⟨s0, _ | ⟨s1, _ | ⟨s2, _ | ⟨s3, _ | ⟨s4, _ | ⟨s5, rest⟩⟩⟩⟩⟩⟩
    · simp [parse_coord_tokens]
    · simp [parse_coord_tokens]
    · simp [parse_coord_tokens]
    · simp [parse_coord_tokens]
    · simp [parse_coord_tokens]
    · simp [parse_coord_tokens]
    · rw [parse_coord_tokens_cons_eq_none_iff]
      constructor
      · intro h
        exact Or.inr ⟨s0, s1, s2, s3, s4, s5, rest, rfl, h⟩
      · rintro (hlen | ⟨t0, t1, t2, t3, t4, t5, trest, heq, hfail⟩)
        · exact absurd hlen (by simp only [List.length_cons]; omega)
        · simp only [List.cons.injEq] at heq
          obtain ⟨rfl, rfl, rfl, rfl, rfl, rfl, rfl⟩ := heq
          exact hfail
  · unfold parse_coord
    rw [show splitWs ("12 30".toList) = [['1', '2'], ['3', '0']] from by decide]
    simp [parse_coord_tokens]

/- Claim C4 -/

/-- C4 (code bug): the claim — and the spec — say `parse_coord4` never
crashes and fails by returning no value when a token is missing; but the
source indexes the token list without any length check, so the empty input
(0 tokens) and the numeric 1-token input `"1"` panic with an out-of-bounds
index (the outer `none` here), while only a non-numeric first token such as
`"x"` still fails gracefully through the `?` operator (`some none`). -/
theorem C4_parse_coord4_panics :
    parse_coord4 ("".toList) = none ∧
    parse_coord4 ("1".toList) = none ∧
    parse_coord4 ("x".toList) = some none := by
  refine ⟨?_, ?_, ?_⟩
  · have h : splitWs ("".toList) = [] := by decide
    simp only [parse_coord4, h]
  · have h : splitWs ("1".toList) = [['1']] := by decide
    have h2 : parseF64 ['1'] = some ((1 : ℚ) : ℝ) := by
      have hq : parseF64q ['1'] = some 1 := by
        simp +decide [parseF64q, parseExpPart, takeDigits, digitsVal]
      unfold parseF64
      rw [hq]
      rfl
    simp only [parse_coord4, h, h2]
  · have h : splitWs ("x".toList) = [['x']] := by decide
    have h2 : parseF64 ['x'] = none := by
      unfold parseF64
      rw [show parseF64q ['x'] = none from by decide]
      rfl
    simp only [parse_coord4, h, h2]

lemma clamp_neg (x : ℝ) :
    min (max (-x) (-(π / 2))) (π / 2) = -(min (max x (-(π / 2))) (π / 2)) := by
  have hπ : (0 : ℝ) ≤ π / 2 := by positivity
  rcases le_total x (-(π / 2)) with h | h
  · rw [max_eq_right h, min_eq_left (by linarith : -(π / 2) ≤ π / 2),
        max_eq_left (by linarith : -(π / 2) ≤ -x),
        min_eq_right (by linarith : π / 2 ≤ -x)]
    ring
  · rcases le_total x (π / 2) with h2 | h2
    · rw [max_eq_left h, min_eq_left h2,
          max_eq_left (by linarith : -(π / 2) ≤ -x),
          min_eq_left (by linarith : -x ≤ π / 2)]
    · rw [max_eq_left h, min_eq_right h2,
          max_eq_right (by linarith : -x ≤ -(π / 2)),
          min_eq_left (by linarith : -(π / 2) ≤ π / 2)]

lemma new_declination_of_mem {ra dec : ℝ} (h1 : -(π / 2) ≤ dec) (h2 : dec ≤ π / 2) :
    (EquatorialCoordinate.new ra dec).declination = dec := clamp_id h1 h2

lemma new_right_ascension_of_mem {ra dec : ℝ} (h1 : 0 ≤ ra) (h2 : ra < 2 * π) :
    (EquatorialCoordinate.new ra dec).right_ascension = ra := frem_eq_self h1 h2

/- Claim C5 -/

/-- C5 counterexample: the claim says the 4th token without a leading sign
yields the same degree magnitude as with `-`; but the source always strips
the first character of that token, so `"05 30 00 -23 15 30"` gives
declination `-(23°15'30")·π/180 = -2791π/21600` while `"05 30 00 23 15 30"`
gives `+(3°15'30")·π/180 = 391π/21600` — the leading `2` was consumed as a
sign position, and the magnitudes differ. -/
theorem C5_counterexample :
    (parse_coord ("05 30 00 -23 15 30".toList)).map EquatorialCoordinate.declination =
      some (-(2791 * π / 21600)) ∧
    (parse_coord ("05 30 00 23 15 30".toList)).map EquatorialCoordinate.declination =
      some (391 * π / 21600) ∧
    391 * π / 21600 ≠ 2791 * π / 21600 := by
  have hpi := Real.pi_pos
  have e05 : parseU8 ['0', '5'] = some 5 := by decide
  have e30 : parseU8 ['3', '0'] = some 30 := by decide
  have e15 : parseU8 ['1', '5'] = some 15 := by decide
  have e00f : parseF64 ['0', '0'] = some ((0 : ℚ) : ℝ) := by
    have hq : parseF64q ['0', '0'] = some 0 := by
      simp +decide [parseF64q, parseExpPart, takeDigits, digitsVal]
    unfold parseF64
    rw [hq]
    rfl
  have e30f : parseF64 ['3', '0'] = some ((30 : ℚ) : ℝ) := by
    have hq : parseF64q ['3', '0'] = some 30 := by
      simp +decide [parseF64q, parseExpPart, takeDigits, digitsVal]
    unfold parseF64
    rw [hq]
    rfl
  refine ⟨?_, ?_, ?_⟩
  · have hsp : splitWs ("05 30 00 -23 15 30".toList) =
        [['0', '5'], ['3', '0'], ['0', '0'], ['-', '2', '3'], ['1', '5'], ['3', '0']] := by
      decide
    have e23 : parseI16 (List.drop 1 ['-', '2', '3']) = some 23 := by decide
    unfold parse_coord
    rw [hsp]
    unfold parse_coord_tokens
    rw [if_neg (by decide)]
    simp only [e05, e30, e00f, e23, e15, e30f, Option.some_bind, Option.map_some]
    have hval : (Degree.new 23 15 ((30 : ℚ) : ℝ)).to_f64 *
        (if List.take 1 ['-', '2', '3'] = ['-'] then (-1 : ℝ) else 1) * (π / 180) =
        -(2791 * π / 21600) := by
      rw [if_pos (by decide)]
      unfold Degree.to_f64 Degree.new
      push_cast
      ring
    rw [hval]
    simp only [Option.map_some', Option.some.injEq]
    exact new_declination_of_mem (by nlinarith) (by nlinarith)
  · have hsp : splitWs ("05 30 00 23 15 30".toList) =
        [['0', '5'], ['3', '0'], ['0', '0'], ['2', '3'], ['1', '5'], ['3', '0']] := by
      decide
    have e3 : parseI16 (List.drop 1 ['2', '3']) = some 3 := by decide
    unfold parse_coord
    rw [hsp]
    unfold parse_coord_tokens
    rw [if_neg (by decide)]
    simp only [e05, e30, e00f, e3, e15, e30f, Option.some_bind, Option.map_some]
    have hval : (Degree.new 3 15 ((30 : ℚ) : ℝ)).to_f64 *
        (if List.take 1 ['2', '3'] = ['-'] then (-1 : ℝ) else 1) * (π / 180) =
        391 * π / 21600 := by
      rw [if_neg (by decide)]
      unfold Degree.to_f64 Degree.new
      push_cast
      ring
    rw [hval]
    simp only [Option.map_some', Option.some.injEq]
    exact new_declination_of_mem (by nlinarith) (by nlinarith)
  · intro h
    nlinarith

/-- C5 (amended): in a 6-token input the first character of the declination
token is always consumed as a sign position: a leading `-` gives a negative
declination computed from the token's tail, and any other leading character
gives exactly the negation (the positive value) computed from the SAME tail —
so magnitudes agree between a signed token and the unsigned token with the
same tail, not between a signed token and its spelling with the `-` removed,
whose tail loses one more digit. -/
theorem C5_sign_strip (s0 s1 s2 s4 s5 rest : List Char) (c : Char) (hc : c ≠ '-') :
    (parse_coord_tokens [s0, s1, s2, c :: rest, s4, s5]).map
        (fun co => (co.right_ascension, co.declination)) =
      (parse_coord_tokens [s0, s1, s2, '-' :: rest, s4, s5]).map
        (fun co => (co.right_ascension, -co.declination)) := by
  unfold parse_coord_tokens
  rw [if_neg (by simp), if_neg (by simp)]
  cases h0 : parseU8 s0 with
  | none => simp [h0]
  | some v0 =>
  cases h1 : parseU8 s1 with
  | none => simp [h0, h1]
  | some v1 =>
  cases h2 : parseF64 s2 with
  | none => simp [h0, h1, h2]
  | some v2 =>
  cases h3 : parseI16 rest with
  | none => simp [h0, h1, h2, h3]
  | some v3 =>
  cases h4 : parseU8 s4 with
  | none => simp [h0, h1, h2, h3, h4]
  | some v4 =>
  cases h5 : parseF64 s5 with
  | none => simp [h0, h1, h2, h3, h4, h5]
  | some v5 =>
  have htake : ([c] = ['-']) = False := by
    simp [List.cons.injEq, hc]
  simp only [List.drop_succ_cons, List.drop_zero, List.take_succ_cons, List.take_zero,
    h0, h1, h2, h3, h4, h5, Option.some_bind, Option.map_some', htake, if_false,
    if_true, eq_self_iff_true, Option.some.injEq, Prod.mk.injEq]
  constructor
  · rfl
  · show (EquatorialCoordinate.new _ _).declination =
      -(EquatorialCoordinate.new _ _).declination
    show min (max ((Degree.new v3 v4 v5).to_f64 * 1 * (π / 180)) (-(π / 2))) (π / 2) =
      -(min (max ((Degree.new v3 v4 v5).to_f64 * (-1) * (π / 180)) (-(π / 2))) (π / 2))
    rw [show (Degree.new v3 v4 v5).to_f64 * (-1) * (π / 180) =
        -((Degree.new v3 v4 v5).to_f64 * 1 * (π / 180)) from by ring]
    rw [clamp_neg, neg_neg]

/-- C5 witness: the amended sign rule at the concrete tokens of the
counterexample family, with leading character `2`. -/
theorem C5_sign_strip_witness :
    (parse_coord_tokens [['0', '5'], ['3', '0'], ['0', '0'], '2' :: ['3'], ['1', '5'], ['3', '0']]).map
        (fun co => (co.right_ascension, co.declination)) =
      (parse_coord_tokens [['0', '5'], ['3', '0'], ['0', '0'], '-' :: ['3'], ['1', '5'], ['3', '0']]).map
        (fun co => (co.right_ascension, -co.declination)) :=
  C5_sign_strip ['0', '5'] ['3', '0'] ['0', '0'] ['1', '5'] ['3', '0'] ['3'] '2' (by decide)

/-- The `Star` struct (src/lib.rs lines 7-14), named `Star'` because the
library already reserves `Star`; `class'` likewise stands for the source
field `class`, a reserved word. -/
structure Star' where
  id : ℕ
  pos : DVec3
  name : List Char
  class' : List Char
  constellation : List Char

/-- The `Record` struct (src/lib.rs lines 142-179): one raw catalog row. -/
structure Record where
  id : ℕ
  identifier : List Char
  typ : List Char
  coord1 : Option (List Char)
  coord2 : Option (List Char)
  coord3 : Option (List Char)
  coord4 : Option (List Char)
  pm : Option (List Char)
  plx : Option ℝ
  radvel : Option ℝ
  redshift : Option ℝ
  cz : Option ℝ
  mag_u : Option ℝ
  mag_b : Option ℝ
  mag_v : Option ℝ
  mag_r : Option ℝ
  mag_i : Option ℝ
  spec_type : Option (List Char)
  morph_type : Option (List Char)
  ang_size : Option (List Char)
  pretty_name : Option (List Char)

/-- The `SimbadError` enum (src/lib.rs lines 181-185). -/
inductive SimbadError where
  | CoordNotFound
  | Unspecified
deriving DecidableEq

/-- `average_coord` (src/lib.rs lines 254-258): arithmetic means of the two
angle components, re-normalized through `EquatorialCoordinate::new`. -/
noncomputable def average_coord (coords : List EquatorialCoordinate) :
    EquatorialCoordinate :=
  EquatorialCoordinate.new
    ((coords.map (fun x => x.right_ascension)).sum / (coords.length : ℝ))
    ((coords.map (fun x => x.declination)).sum / (coords.length : ℝ))

/-- `str::ends_with("B")` on a character list. -/
def endsWithB (s : List Char) : Bool := s.getLast? == some 'B'

/-- One iteration of the `import` loop (src/lib.rs lines 209-233) on an
already-deserialized record, threading the accumulated star list: skip on
missing parallax, missing spectral type or a `B`-suffixed identifier; error
with `CoordNotFound` when any of the three coordinate columns is absent;
otherwise append the assembled `Star` (the `record.id == 0` debugging print
has no observable effect and is omitted; the `ok_or(Unspecified)?` on the
parallax cannot fire after the `is_none` check). -/
noncomputable def importStep (record : Record) (stars : List Star') :
    Except SimbadError (List Star') :=
  match record.plx with
  | none => Except.ok stars
  | some plx =>
    let dist := deriveDist plx
    match record.coord1 with
    | none => Except.error SimbadError.CoordNotFound
    | some c1 =>
      match record.coord2 with
      | none => Except.error SimbadError.CoordNotFound
      | some c2 =>
        match record.coord3 with
        | none => Except.error SimbadError.CoordNotFound
        | some c3 =>
          let coords := [parse_coord c1, parse_coord c2, parse_coord c3].filterMap id
          let coord := average_coord coords
          let name := record.identifier
          let pos := StellarPosition.new dist coord.right_ascension coord.declination
          match record.spec_type with
          | none => Except.ok stars
          | some spec_type =>
            if endsWithB name then Except.ok stars
            else
              Except.ok (stars ++
                [⟨record.id, pos.toDVec3, record.pretty_name.getD [], spec_type, ['?']⟩])

/-- The record loop of `import` (src/lib.rs lines 206-235): records are
processed in order and the first error aborts everything. -/
noncomputable def importAux : List Record → List Star' → Except SimbadError (List Star')
  | [], stars => Except.ok stars
  | r :: rs, stars =>
    match importStep r stars with
    | Except.error e => Except.error e
    | Except.ok stars2 => importAux rs stars2

/-- `import` (src/lib.rs lines 206-235) on an already-deserialized record
list (the CSV reading of `import_records` is I/O plumbing outside the
transform core). -/
noncomputable def importStars (records : List Record) :
    Except SimbadError (List Star') :=
  importAux records []

lemma importStep_coord_missing (r : Record) (stars : List Star') (p : ℝ)
    (hplx : r.plx = some p)
    (hc : r.coord1 = none ∨ r.coord2 = none ∨ r.coord3 = none) :
    importStep r stars = Except.error SimbadError.CoordNotFound := by
  rcases h1 : r.coord1 with _ | c1
  · simp [importStep, hplx, h1]
  · rcases h2 : r.coord2 with _ | c2
    · simp [importStep, hplx, h1, h2]
    · rcases h3 : r.coord3 with _ | c3
      · simp [importStep, hplx, h1, h2, h3]
      · rcases hc with h | h | h
        · rw [h1] at h; cases h
        · rw [h2] at h; cases h
        · rw [h3] at h; cases h

lemma importAux_append (pre xs : List Record) (init : List Star') :
    importAux (pre ++ xs) init =
      match importAux pre init with
      | Except.ok s => importAux xs s
      | Except.error e => Except.error e := by
  induction pre generalizing init with
  | nil => simp [importAux]
  | cons r rs ih =>
    cases h : importStep r init with
    | error e => simp [importAux, h]
    | ok s => simp [importAux, h, ih s]

/- Claim C6 -/

/-- C6: if a record that reaches the coordinate-parsing step (its parallax is
present) is missing any one of the three coordinate columns, the whole import
aborts with the coordinate-not-found error: the stars assembled from earlier
records are discarded and later records are never reached. -/
theorem C6_missing_coord_aborts (pre rest : List Record) (r : Record)
    (s : List Star') (p : ℝ)
    (hplx : r.plx = some p)
    (hc : r.coord1 = none ∨ r.coord2 = none ∨ r.coord3 = none)
    (hpre : importAux pre [] = Except.ok s) :
    importStars (pre ++ r :: rest) = Except.error SimbadError.CoordNotFound := by
  unfold importStars
  rw [importAux_append, hpre]
  show importAux (r :: rest) s = _
  unfold importAux
  rw [importStep_coord_missing r s p hplx hc]

/-- A concrete record with parallax present and all coordinate columns
absent, exercising the C6 abort. -/
noncomputable def recC6 : Record :=
  { id := 0, identifier := [], typ := [], coord1 := none, coord2 := none,
    coord3 := none, coord4 := none, pm := none, plx := some 1, radvel := none,
    redshift := none, cz := none, mag_u := none, mag_b := none, mag_v := none,
    mag_r := none, mag_i := none, spec_type := none, morph_type := none,
    ang_size := none, pretty_name := none }

/-- C6 witness: the single-record batch `[recC6]` aborts with
`CoordNotFound`. -/
theorem C6_missing_coord_aborts_witness :
    importStars ([] ++ recC6 :: []) = Except.error SimbadError.CoordNotFound :=
  C6_missing_coord_aborts [] [] recC6 [] 1 rfl (Or.inl rfl) rfl

/- NaN-aware scalar model for the import tail: a scalar is `Option ℝ` with
`none` standing for a non-finite f64 value. On the modelled path the only
non-finite values are NaN, produced by `0.0/0.0` and propagated. -/

/-- Float division; a zero divisor gives a non-finite result (`0/0` is NaN). -/
noncomputable def nanDiv (a b : Option ℝ) : Option ℝ :=
  match a, b with
  | some x, some y => if y = 0 then none else some (x / y)
  | _, _ => none

/-- Float multiplication; NaN propagates (`0 * NaN = NaN`). -/
noncomputable def nanMul (a b : Option ℝ) : Option ℝ :=
  match a, b with
  | some x, some y => some (x * y)
  | _, _ => none

/-- Float remainder; a NaN operand or a zero divisor gives NaN. -/
noncomputable def nanRem (a b : Option ℝ) : Option ℝ :=
  match a, b with
  | some x, some y => if y = 0 then none else some (frem x y)
  | _, _ => none

/-- Rust `f64::max`, which ignores NaN: if one argument is NaN the other
argument is returned. -/
noncomputable def rustMax (a b : Option ℝ) : Option ℝ :=
  match a, b with
  | some x, some y => some (max x y)
  | some x, none => some x
  | none, some y => some y
  | none, none => none

/-- Rust `f64::min`, which ignores NaN like `f64::max`. -/
noncomputable def rustMin (a b : Option ℝ) : Option ℝ :=
  match a, b with
  | some x, some y => some (min x y)
  | some x, none => some x
  | none, some y => some y
  | none, none => none

/-- Cosine with NaN propagation. -/
noncomputable def nanCos (a : Option ℝ) : Option ℝ := a.map Real.cos

/-- Sine with NaN propagation. -/
noncomputable def nanSin (a : Option ℝ) : Option ℝ := a.map Real.sin

/-- `EquatorialCoordinate` with possibly-NaN fields. -/
structure EqCoordN where
  right_ascension : Option ℝ
  declination : Option ℝ

/-- `EquatorialCoordinate::new` in the NaN model: the remainder propagates
NaN, while the `max`/`min` clamp drops it. -/
noncomputable def EqCoordN.new (ra dec : Option ℝ) : EqCoordN :=
  ⟨nanRem ra (some (2 * π)),
   rustMin (rustMax dec (some (-(π / 2)))) (some (π / 2))⟩

/-- `average_coord` in the NaN model, over genuinely parsed (hence finite)
coordinates: on an empty list both sums are `0.0` and the length is `0`, so
both divisions are `0.0/0.0` = NaN. -/
noncomputable def average_coordN (coords : List EquatorialCoordinate) : EqCoordN :=
  EqCoordN.new
    (nanDiv (some ((coords.map (fun x => x.right_ascension)).sum))
      (some ((coords.length : ℝ))))
    (nanDiv (some ((coords.map (fun x => x.declination)).sum))
      (some ((coords.length : ℝ))))

/-- The position assembly of the import tail in the NaN model:
`StellarPosition::new` re-normalizes the averaged coordinate, then the
`Into<DVec3>` forward transform runs with NaN propagation. -/
noncomputable def importPosN (dist : ℝ) (coords : List EquatorialCoordinate) :
    Option ℝ × Option ℝ × Option ℝ :=
  let coord := average_coordN coords
  let coord2 := EqCoordN.new coord.right_ascension coord.declination
  let adj := nanMul (some dist) (nanCos coord2.declination)
  let opp := nanMul (some dist) (nanSin coord2.declination)
  (nanMul adj (nanCos coord2.right_ascension),
   nanMul adj (nanSin coord2.right_ascension), opp)

/-- A concrete record with parallax `100`, spectral type present, identifier
`A` (no `B` suffix) and all three coordinate columns present but unparsable
(2 tokens each), exercising the C10 path. -/
noncomputable def recC10 : Record :=
  { id := 7, identifier := ['A'], typ := [], coord1 := some ("1 2".toList),
    coord2 := some ("1 2".toList), coord3 := some ("1 2".toList), coord4 := none,
    pm := none, plx := some 100, radvel := none, redshift := none, cz := none,
    mag_u := none, mag_b := none, mag_v := none, mag_r := none, mag_i := none,
    spec_type := some ("G2V".toList), morph_type := none, ang_size := none,
    pretty_name := none }

/- Claim C10 -/

/-- C10 counterexample: the claim says the star assembled from an
all-unparsable coordinate record has NaN right ascension AND declination
after averaging, and all-NaN Cartesian components; but `average_coord`
normalizes through `EquatorialCoordinate::new`, whose `max`/`min` clamp
drops NaN, so the declination comes out as the finite value `-π/2`, and the
z component of the position is `dist·sin(-π/2) = -32.6` for parallax `100` —
finite, not NaN. -/
theorem C10_counterexample :
    (average_coordN []).declination = some (-(π / 2)) ∧
    (importPosN (deriveDist 100) []).2.2 = some (-(163 / 5)) := by
  have hπ := Real.pi_pos
  have havg : average_coordN [] = ⟨none, some (-(π / 2))⟩ := by
    unfold average_coordN EqCoordN.new nanDiv nanRem rustMax rustMin
    simp
    positivity
  refine ⟨by rw [havg], ?_⟩
  unfold importPosN
  rw [havg]
  show (_, _, nanMul (some (deriveDist 100))
    (nanSin (EqCoordN.new none (some (-(π / 2)))).declination)).2.2 = _
  have hnew : (EqCoordN.new none (some (-(π / 2)))).declination = some (-(π / 2)) := by
    unfold EqCoordN.new rustMax rustMin
    simp only [max_self]
    rw [min_eq_left (by linarith : -(π / 2) ≤ π / 2)]
  rw [hnew]
  unfold nanSin nanMul
  simp only [Option.map_some', Real.sin_neg, Real.sin_pi_div_two]
  rw [show deriveDist 100 = 163 / 5 from by unfold deriveDist; norm_num]
  norm_num

/-- C10 (amended): a record with parallax, spectral type and three present
but unparsable coordinate columns is neither skipped nor an error — a star
is appended; `average_coord` on the empty coordinate list computes `0.0/0.0`
= NaN for both angles, but its final normalization clamps the declination to
the finite value `-π/2` (the host `max`/`min` ignore NaN) while the right
ascension stays NaN; the assembled position then has NaN x and y components
and the finite z component `dist·sin(-π/2) = -dist`. -/
theorem C10_empty_average :
    (∀ stars, ∃ st, importStep recC10 stars = Except.ok (stars ++ [st])) ∧
    average_coordN [] = ⟨none, some (-(π / 2))⟩ ∧
    (∀ d : ℝ, importPosN d [] = (none, none, some (-d))) := by
  have hπ := Real.pi_pos
  have havg : average_coordN [] = ⟨none, some (-(π / 2))⟩ := by
    unfold average_coordN EqCoordN.new nanDiv nanRem rustMax rustMin
    simp
    positivity
  have hnew : (EqCoordN.new none (some (-(π / 2)))) = ⟨none, some (-(π / 2))⟩ := by
    unfold EqCoordN.new nanRem rustMax rustMin
    simp only [max_self]
    rw [min_eq_left (by linarith : -(π / 2) ≤ π / 2)]
  refine ⟨?_, havg, ?_⟩
  · intro stars
    have hpc : parse_coord ['1', ' ', '2'] = none := by
      unfold parse_coord
      rw [show splitWs ['1', ' ', '2'] = [['1'], ['2']] from by decide]
      simp [parse_coord_tokens]
    refine ⟨⟨7, (StellarPosition.new (deriveDist 100)
      (average_coord []).right_ascension (average_coord []).declination).toDVec3,
      [], "G2V".toList, ['?']⟩, ?_⟩
    simp [importStep, recC10, hpc, endsWithB]
  · intro d
    unfold importPosN
    rw [havg]
    show (nanMul (nanMul (some d) (nanCos (EqCoordN.new none (some (-(π / 2)))).declination))
        (nanCos (EqCoordN.new none (some (-(π / 2)))).right_ascension),
      nanMul (nanMul (some d) (nanCos (EqCoordN.new none (some (-(π / 2)))).declination))
        (nanSin (EqCoordN.new none (some (-(π / 2)))).right_ascension),
      nanMul (some d) (nanSin (EqCoordN.new none (some (-(π / 2)))).declination)) = _
    rw [hnew]
    unfold nanCos nanSin nanMul
    simp only [Option.map_some', Option.map_none', Real.sin_neg, Real.sin_pi_div_two]
    norm_num

/- Helper lemmas for the Cartesian transforms. -/

lemma toDVec3_eq (p : StellarPosition) :
    StellarPosition.toDVec3 p =
      ⟨p.distance * Real.cos p.coord.declination * Real.cos p.coord.right_ascension,
       p.distance * Real.cos p.coord.declination * Real.sin p.coord.right_ascension,
       p.distance * Real.sin p.coord.declination⟩ := rfl

lemma fromDVec3_mk (x y z : ℝ) :
    StellarPosition.fromDVec3 ⟨x, y, z⟩ =
      ⟨Real.sqrt (x ^ 2 + y ^ 2 + z ^ 2),
       ⟨(if 0 ≤ x ∧ 0 ≤ y then atan2 |y| |x|
         else if 0 ≤ x ∧ y ≤ 0 then π - atan2 |y| |x|
         else if x ≤ 0 ∧ y ≤ 0 then π + atan2 |y| |x|
         else 2 * π - atan2 |y| |x|),
        (if Real.sqrt (x ^ 2 + y ^ 2 + z ^ 2) ≠ 0
         then Real.arccos (Real.sqrt (x ^ 2 + y ^ 2) / Real.sqrt (x ^ 2 + y ^ 2 + z ^ 2)) *
            rsignum z
         else 0)⟩⟩ := rfl

lemma atan2_pos_x {y x : ℝ} (hx : 0 < x) : atan2 y x = Real.arctan (y / x) :=
  if_pos hx

lemma atan2_zero_pos {y : ℝ} (hy : 0 < y) : atan2 y 0 = π / 2 := by
  unfold atan2
  rw [if_neg (lt_irrefl 0), if_neg (lt_irrefl 0), if_pos hy]

/- Claim C1 -/

/-- C1 counterexample: the claim says the forward-then-inverse Cartesian
round trip reproduces every `(d, α, δ)` with `d > 0`, `α ∈ [0, 2π)`,
`δ ∈ [-π/2, π/2]`, explicitly including fourth-quadrant right ascensions;
but the inverse transform's quadrant adjustment uses `π - atan2` on the
`x ≥ 0, y ≤ 0` branch (and `2π - atan2` on `x ≤ 0, y ≥ 0`), swapping the
second and fourth quadrants: at `(d, α, δ) = (1, 3π/2, 0)` the round trip
returns right ascension `π/2`, not `3π/2`. -/
theorem C1_counterexample :
    (StellarPosition.fromDVec3
        (StellarPosition.toDVec3 ⟨1, ⟨3 * π / 2, 0⟩⟩)).coord.right_ascension = π / 2 ∧
    π / 2 ≠ 3 * π / 2 := by
  have hπ := Real.pi_pos
  have hcos : Real.cos (3 * π / 2) = 0 := by
    rw [show 3 * π / 2 = π + π / 2 from by ring, Real.cos_add]
    simp
  have hsin : Real.sin (3 * π / 2) = -1 := by
    rw [show 3 * π / 2 = π + π / 2 from by ring, Real.sin_add]
    simp
  have hfwd : StellarPosition.toDVec3 ⟨1, ⟨3 * π / 2, 0⟩⟩ = ⟨0, -1, 0⟩ := by
    rw [toDVec3_eq]
    simp [hcos, hsin]
  constructor
  · rw [hfwd, fromDVec3_mk]
    show (if (0 : ℝ) ≤ 0 ∧ (0 : ℝ) ≤ -1 then _ else _) = _
    rw [if_neg (by norm_num), if_pos (by norm_num : (0 : ℝ) ≤ 0 ∧ (-1 : ℝ) ≤ 0)]
    rw [show |(-1 : ℝ)| = 1 from by norm_num, show |(0 : ℝ)| = 0 from by norm_num,
      atan2_zero_pos one_pos]
    ring
  · intro h
    nlinarith

/-- C1 (amended): for `d > 0`, `δ` strictly inside `(-π/2, π/2)` and `α` in
the first quadrant `[0, π/2]` or the third quadrant `[π, 3π/2)`, the
forward-then-inverse Cartesian round trip reproduces `(d, α, δ)` exactly;
the distance and declination are also recovered for second- and
fourth-quadrant `α`, but there the recovered right ascension is `α ± π`
(the inverse swaps those quadrants), and at the poles `δ = ±π/2` the planar
vector degenerates and the right ascension collapses to `0`. -/
theorem C1_round_trip (d α δ : ℝ) (hd : 0 < d)
    (hδl : -(π / 2) < δ) (hδr : δ < π / 2)
    (hα : (0 ≤ α ∧ α ≤ π / 2) ∨ (π ≤ α ∧ α < 3 * π / 2)) :
    StellarPosition.fromDVec3 (StellarPosition.toDVec3 ⟨d, ⟨α, δ⟩⟩) = ⟨d, ⟨α, δ⟩⟩ := by
  have hπ := Real.pi_pos
  have hcosδ : 0 < Real.cos δ := Real.cos_pos_of_mem_Ioo (Set.mem_Ioo.mpr ⟨hδl, hδr⟩)
  have hc : 0 < d * Real.cos δ := mul_pos hd hcosδ
  have h1 := Real.sin_sq_add_cos_sq α
  have h2 := Real.sin_sq_add_cos_sq δ
  have hfwd : StellarPosition.toDVec3 ⟨d, ⟨α, δ⟩⟩ =
      ⟨d * Real.cos δ * Real.cos α, d * Real.cos δ * Real.sin α, d * Real.sin δ⟩ :=
    toDVec3_eq _
  have hsum : (d * Real.cos δ * Real.cos α) ^ 2 + (d * Real.cos δ * Real.sin α) ^ 2 +
      (d * Real.sin δ) ^ 2 = d ^ 2 := by
    linear_combination (d ^ 2 * Real.cos δ ^ 2) * h1 + d ^ 2 * h2
  have hsum2 : (d * Real.cos δ * Real.cos α) ^ 2 + (d * Real.cos δ * Real.sin α) ^ 2 =
      (d * Real.cos δ) ^ 2 := by
    linear_combination (d ^ 2 * Real.cos δ ^ 2) * h1
  rw [hfwd, fromDVec3_mk, hsum, hsum2, Real.sqrt_sq hd.le, Real.sqrt_sq hc.le]
  simp only [StellarPosition.mk.injEq, EquatorialCoordinate.mk.injEq]
  refine ⟨trivial, ?_, ?_⟩
  · rcases hα with ⟨h0, hle⟩ | ⟨hge, hlt⟩
    · have hxge : 0 ≤ d * Real.cos δ * Real.cos α :=
        mul_nonneg hc.le (Real.cos_nonneg_of_mem_Icc (Set.mem_Icc.mpr ⟨by linarith, hle⟩))
      have hyge : 0 ≤ d * Real.cos δ * Real.sin α :=
        mul_nonneg hc.le (Real.sin_nonneg_of_nonneg_of_le_pi h0 (by linarith))
      rw [if_pos ⟨hxge, hyge⟩, abs_of_nonneg hyge, abs_of_nonneg hxge]
      rcases lt_or_eq_of_le hle with hlt | heq
      · have hcosα : 0 < Real.cos α :=
          Real.cos_pos_of_mem_Ioo (Set.mem_Ioo.mpr ⟨by linarith, hlt⟩)
        have hx : 0 < d * Real.cos δ * Real.cos α := mul_pos hc hcosα
        rw [atan2_pos_x hx, mul_div_mul_left _ _ hc.ne', ← Real.tan_eq_sin_div_cos,
          Real.arctan_tan (by linarith) hlt]
      · rw [heq, Real.cos_pi_div_two, Real.sin_pi_div_two, mul_zero, mul_one,
          atan2_zero_pos hc]
    · have hcosneg : Real.cos α < 0 :=
        Real.cos_neg_of_pi_div_two_lt_of_lt (by linarith) (by linarith)
      have hx : d * Real.cos δ * Real.cos α < 0 := mul_neg_of_pos_of_neg hc hcosneg
      have hsinid : Real.sin α = -Real.sin (α - π) := by
        rw [Real.sin_sub]
        simp
      have hcosid : Real.cos α = -Real.cos (α - π) := by
        rw [Real.cos_sub]
        simp
      have hsin2 : 0 ≤ Real.sin (α - π) :=
        Real.sin_nonneg_of_nonneg_of_le_pi (by linarith) (by linarith)
      have hy : d * Real.cos δ * Real.sin α ≤ 0 := by
        rw [hsinid]
        have := mul_nonneg hc.le hsin2
        nlinarith
      rw [if_neg (fun h => (not_le.mpr hx) h.1), if_neg (fun h => (not_le.mpr hx) h.1),
        if_pos ⟨hx.le, hy⟩, abs_of_nonpos hy, abs_of_nonpos hx.le]
      have hy2 : -(d * Real.cos δ * Real.sin α) = d * Real.cos δ * Real.sin (α - π) := by
        rw [hsinid]
        ring
      have hx2 : -(d * Real.cos δ * Real.cos α) = d * Real.cos δ * Real.cos (α - π) := by
        rw [hcosid]
        ring
      have hcos2 : 0 < Real.cos (α - π) :=
        Real.cos_pos_of_mem_Ioo (Set.mem_Ioo.mpr ⟨by linarith, by linarith⟩)
      have hxpos : 0 < d * Real.cos δ * Real.cos (α - π) := mul_pos hc hcos2
      rw [hy2, hx2, atan2_pos_x hxpos, mul_div_mul_left _ _ hc.ne',
        ← Real.tan_eq_sin_div_cos, Real.arctan_tan (by linarith) (by linarith)]
      ring
  · rw [if_pos hd.ne', mul_div_cancel_left₀ _ hd.ne']
    rcases le_or_lt 0 δ with hδ0 | hδ0
    · rw [Real.arccos_cos hδ0 (by linarith)]
      have hz : 0 ≤ d * Real.sin δ :=
        mul_nonneg hd.le (Real.sin_nonneg_of_nonneg_of_le_pi hδ0 (by linarith))
      unfold rsignum
      rw [if_neg (not_lt.mpr hz)]
      ring
    · rw [show Real.cos δ = Real.cos (-δ) from (Real.cos_neg δ).symm,
        Real.arccos_cos (by linarith) (by linarith)]
      have hsineg : Real.sin δ < 0 := Real.sin_neg_of_neg_of_neg_pi_lt hδ0 (by linarith)
      have hz : d * Real.sin δ < 0 := mul_neg_of_pos_of_neg hd hsineg
      unfold rsignum
      rw [if_pos hz]
      ring

/-- C1 witness: the round trip at the concrete in-range input
`(d, α, δ) = (1, 0, 0)`. -/
theorem C1_round_trip_witness :
    StellarPosition.fromDVec3 (StellarPosition.toDVec3 ⟨1, ⟨0, 0⟩⟩) = ⟨1, ⟨0, 0⟩⟩ :=
  C1_round_trip 1 0 0 (by norm_num) (by linarith [Real.pi_pos])
    (by linarith [Real.pi_pos]) (Or.inl ⟨le_refl 0, by linarith [Real.pi_pos]⟩)
